import Mathlib

/-!
Verification of the document authorization core of the `think` wiki platform:
the authority resolution engine (`resolve`), the share state machine
(`shareDocument` / `resolvePublicAccess`), the request guard pipeline with its
operation-to-capability table (embedded from the controller's
`@CheckDocumentAuthority` decorators in the source), and the star toggling
service (`toggleStar` / `isStared`, embedded from `star.service.ts`).
-/

/-- Capabilities, ordered least to most powerful:
`readable ⊂ editable ⊂ createUser`. -/
inductive Capability where
  | readable
  | editable
  | createUser
deriving DecidableEq, Repr

/-- Rank of a capability in the lattice order. -/
def Capability.rank : Capability → Nat
  | .readable => 0
  | .editable => 1
  | .createUser => 2

/-- Lattice comparison: `capLe a b` means capability `a` is implied by `b`. -/
def capLe (a b : Capability) : Bool :=
  a.rank ≤ b.rank

/-- Document status: `private` or `public`. -/
inductive DocStatus where
  | priv
  | pub
deriving DecidableEq, Repr

/-- Share configuration: token, optional password, optional expiry. -/
structure ShareConfig where
  token : String
  password : Option String
  expiresAt : Option Nat
deriving DecidableEq, Repr

/-- A document record: id, nullable parent id, wiki id, creator id, status,
nullable share configuration. -/
structure Document where
  id : Nat
  parentDocumentId : Option Nat
  wikiId : Nat
  creatorId : Nat
  status : DocStatus
  shareConfig : Option ShareConfig
deriving DecidableEq, Repr

/-- A wiki: id, creator id, visibility. -/
structure Wiki where
  id : Nat
  creatorId : Nat
  isPublic : Bool
deriving DecidableEq, Repr

/-- An explicit authority grant (DocAuthorityRecord): (documentId, userId,
capability). -/
structure Grant where
  documentId : Nat
  userId : Nat
  cap : Capability
deriving DecidableEq, Repr

/-- A wiki membership row: (wikiId, userId, role). -/
structure MemberRecord where
  wikiId : Nat
  userId : Nat
  isAdmin : Bool
deriving DecidableEq, Repr

/-- The read-only store state the resolver consults: DocumentTreeStore
(documents), grants, wikis and MembershipStore rows. -/
structure Store where
  docs : List Document
  grants : List Grant
  wikis : List Wiki
  members : List MemberRecord
deriving DecidableEq, Repr

/-- Look up a document by id. -/
def findDoc (s : Store) (documentId : Nat) : Option Document :=
  s.docs.find? (fun d => d.id == documentId)

/-- Look up an explicit grant for (documentId, userId). -/
def findGrant (s : Store) (documentId userId : Nat) : Option Grant :=
  s.grants.find? (fun g => g.documentId == documentId && g.userId == userId)

/-- Look up a wiki by id. -/
def findWiki (s : Store) (wikiId : Nat) : Option Wiki :=
  s.wikis.find? (fun w => w.id == wikiId)

/-- Look up a membership row for (wikiId, userId). -/
def findMember (s : Store) (wikiId userId : Nat) : Option MemberRecord :=
  s.members.find? (fun m => m.wikiId == wikiId && m.userId == userId)

/-- Decisions of the authority resolver. -/
inductive Decision where
  | allow
  | forbidden
  | unauthenticated
  | notFound
  | integrityError
deriving DecidableEq, Repr

/-- Once a capability is found for the actor, allow iff the requested
capability is implied by it in the lattice order. -/
def decideCap (req granted : Capability) : Decision :=
  if capLe req granted then .allow else .forbidden

/-- Result of the bounded ancestor walk. -/
inductive WalkResult where
  | found (cap : Capability)
  | root
  | broken
deriving DecidableEq, Repr

/-- Modelled from the spec: the ancestor-grant walk of `AuthorityResolver`
(rule 4 of the resolution order), whose implementation is not among the
source files. Walk up the parent chain with bounded fuel; the first ancestor
carrying an explicit grant for the actor determines the capability; a missing
parent or fuel exhaustion (cycle) is a data integrity failure. -/
def walkAncestors (s : Store) (userId : Nat) : Nat → Option Nat → WalkResult
  | _, none => .root
  | 0, some _ => .broken
  | Nat.succ fuel, some pid =>
    match findDoc s pid with
    | none => .broken
    | some d =>
      match findGrant s pid userId with
      | some g => .found g.cap
      | none => walkAncestors s userId fuel d.parentDocumentId

/-- Is the actor the creator of the document? -/
def isCreator (d : Document) (userId : Nat) : Bool :=
  d.creatorId == userId

/-- Did the actor create the document's wiki? -/
def isWikiOwner (s : Store) (d : Document) (userId : Nat) : Bool :=
  match findWiki s d.wikiId with
  | some w => w.creatorId == userId
  | none => false

/-- Wiki membership fallback (rule 5): readable is granted when the wiki is
public or the actor is a plain (non-admin) member. -/
def wikiFallback (s : Store) (d : Document) (userId : Nat) : Bool :=
  match findWiki s d.wikiId with
  | some w =>
    w.isPublic ||
      (match findMember s d.wikiId userId with
       | some m => !m.isAdmin
       | none => false)
  | none => false

/-- Modelled from the spec: `AuthorityResolver.resolve`, whose implementation
is not among the source files; only its guard-decorator call sites are.
Resolution order (first match wins): creator check, wiki-owner check,
explicit grant, ancestor grant inheritance (bounded walk, fail closed with
`integrityError` on cycle or missing parent), wiki membership fallback,
otherwise deny. -/
def resolve (s : Store) (actor : Option Nat) (documentId : Nat)
    (req : Capability) : Decision :=
  match actor with
  | none => .unauthenticated
  | some uid =>
    match findDoc s documentId with
    | none => .notFound
    | some d =>
      if isCreator d uid then decideCap req .createUser
      else if isWikiOwner s d uid then decideCap req .createUser
      else
        match findGrant s documentId uid with
        | some g => decideCap req g.cap
        | none =>
          match walkAncestors s uid s.docs.length d.parentDocumentId with
          | .broken => .integrityError
          | .found cap => decideCap req cap
          | .root =>
            if wikiFallback s d uid then decideCap req .readable
            else .forbidden

/-- The operations declared on `DocumentController` in the source
(`src/unnamed/part_000`), one constructor per route handler. -/
inductive Operation where
  | search
  | getWorkspaceDocuments
  | createDocument
  | getDocumentDetail
  | updateDocument
  | getDocumentVersion
  | getDocUsers
  | addDocUser
  | updateDocUser
  | deleteDocUser
  | getChildrenDocuments
  | deleteDocument
  | shareDocumentOp
  | getShareDocumentDetail
  | getShareChildrenDocuments
deriving DecidableEq, Repr

/-- The static operation-to-capability table, read off the
`@CheckDocumentAuthority(...)` decorator of each route handler in
`src/unnamed/part_000`; `none` for handlers that carry no such decorator. -/
def requiredCapability : Operation → Option Capability
  | .search => none
  | .getWorkspaceDocuments => none
  | .createDocument => none
  | .getDocumentDetail => some .readable
  | .updateDocument => some .editable
  | .getDocumentVersion => some .readable
  | .getDocUsers => some .readable
  | .addDocUser => some .createUser
  | .updateDocUser => some .createUser
  | .deleteDocUser => some .createUser
  | .getChildrenDocuments => some .readable
  | .deleteDocument => some .createUser
  | .shareDocumentOp => some .editable
  | .getShareDocumentDetail => none
  | .getShareChildrenDocuments => none

/-- Routes guarded by `@UseGuards(JwtGuard)` in `src/unnamed/part_000`:
every handler except the two public-share routes. -/
def requiresAuth : Operation → Bool
  | .getShareDocumentDetail => false
  | .getShareChildrenDocuments => false
  | _ => true

/-- Routes flagged `@CheckDocumentStatus(DocumentStatus.public)` in
`src/unnamed/part_000`: the public-share routes. -/
def isPublicShareRoute : Operation → Bool
  | .getShareDocumentDetail => true
  | .getShareChildrenDocuments => true
  | _ => false

/-- Modelled from the spec: the authenticated branch of
`RequestGuardPipeline` (the `DocumentAuthorityGuard` implementation is not
among the source files; only the controller's decorators are). Reject with
`unauthenticated` if the actor is missing on an authenticated route; consult
the static capability table; delegate to `resolve` when the operation
declares a required capability. -/
def authGuard (s : Store) (actor : Option Nat) (documentId : Nat)
    (op : Operation) : Decision :=
  if requiresAuth op && actor.isNone then .unauthenticated
  else
    match requiredCapability op with
    | none => .allow
    | some c => resolve s actor documentId c

/-- Decisions of the public-share access check. -/
inductive PublicDecision where
  | allow
  | forbidden
  | expired
deriving DecidableEq, Repr

/-- Modelled from the spec: `ShareStateMachine.resolvePublicAccess`, whose
implementation is not among the source files. Requires status public, token
match, password match if a password is set, and (if an expiry is set) the
current time strictly before it; a correct but expired share yields
`expired`, distinct from `forbidden`. The expiry validation: -/
def checkExpiry (now : Nat) (cfg : ShareConfig) : PublicDecision :=
  match cfg.expiresAt with
  | some e => if now < e then .allow else .expired
  | none => .allow

/-- The token/password/expiry validation of a share configuration, applied
once the document and its configuration are found. -/
def checkConfig (now : Nat) (token : String) (password : Option String)
    (d : Document) (cfg : ShareConfig) : PublicDecision :=
  if d.status ≠ .pub then .forbidden
  else if cfg.token ≠ token then .forbidden
  else
    match cfg.password with
    | some p => if password ≠ some p then .forbidden else checkExpiry now cfg
    | none => checkExpiry now cfg

/-- Modelled from the spec (continued): the full public-access check. -/
def resolvePublicAccess (s : Store) (now : Nat) (documentId : Nat)
    (token : String) (password : Option String) : PublicDecision :=
  match findDoc s documentId with
  | none => .forbidden
  | some d =>
    match d.shareConfig with
    | none => .forbidden
    | some cfg => checkConfig now token password d cfg

/-- Modelled from the spec: the public-share branch of
`RequestGuardPipeline`. The controller's public routes
(`getShareDocumentDetail`, `getShareChildrenDocuments` in
`src/unnamed/part_000`) carry no JwtGuard and never pass `req.user` to the
service, so the decision is computed from the share state alone; the actor
argument is carried but not consulted. -/
def publicRouteDecision (s : Store) (now : Nat) (_actor : Option Nat)
    (documentId : Nat) (token : String) (password : Option String) :
    PublicDecision :=
  resolvePublicAccess s now documentId token password

/-- Apply a share transition to a single document: enabling sets status
public and stores the share configuration; disabling clears it and reverts
status to private. -/
def applyShare (enable : Bool) (password : Option String)
    (expiresAt : Option Nat) (token : String) (d : Document) : Document :=
  if enable then
    { d with status := .pub,
             shareConfig := some ⟨token, password, expiresAt⟩ }
  else
    { d with status := .priv, shareConfig := none }

/-- Replace the document with the given id in the store. -/
def updateDoc (s : Store) (documentId : Nat) (f : Document → Document) :
    Store :=
  { s with docs := s.docs.map (fun d => if d.id == documentId then f d else d) }

/-- Modelled from the spec: `ShareStateMachine.shareDocument`, whose
implementation is not among the source files; the controller route declares
`@CheckDocumentAuthority('editable')` and the spec says the transition
requires `editable` or above, verified via `AuthorityResolver`. On denial the
store is returned unchanged; on allow the document's status and share
configuration are updated. -/
def shareDocument (s : Store) (userId documentId : Nat) (enable : Bool)
    (password : Option String) (expiresAt : Option Nat) (token : String) :
    Decision × Store :=
  match resolve s (some userId) documentId .editable with
  | .allow => (.allow, updateDoc s documentId
                 (applyShare enable password expiresAt token))
  | d => (d, s)

/-- A star record as persisted by `star.service.ts`: the dto's target fields
plus the acting user's id. -/
structure StarRecord where
  userId : Nat
  wikiId : Option Nat
  documentId : Option Nat
deriving DecidableEq, Repr

/-- The star dto: wiki and/or document target. -/
structure StarDto where
  wikiId : Option Nat
  documentId : Option Nat
deriving DecidableEq, Repr

/-- The row `StarService.toggleStar` looks up and creates:
`{ ...dto, userId: user.id }`. -/
def starData (userId : Nat) (dto : StarDto) : StarRecord :=
  ⟨userId, dto.wikiId, dto.documentId⟩

/-- The predicate of `starRepo.findOne(data)`: all fields of the lookup row
match. -/
def starMatches (userId : Nat) (dto : StarDto) (r : StarRecord) : Bool :=
  r.userId == userId && r.wikiId == dto.wikiId && r.documentId == dto.documentId

/-- `StarService.toggleStar` from `star.service.ts`: if a matching record
exists, remove it and return nothing; otherwise create, save and return the
new record. -/
def toggleStar (store : List StarRecord) (userId : Nat) (dto : StarDto) :
    List StarRecord × Option StarRecord :=
  match store.find? (starMatches userId dto) with
  | some r => (store.erase r, none)
  | none => (store ++ [starData userId dto], some (starData userId dto))

/-- `StarService.isStared` from `star.service.ts`: whether a matching record
exists. -/
def isStared (store : List StarRecord) (userId : Nat) (dto : StarDto) : Bool :=
  (store.find? (starMatches userId dto)).isSome

/-! ## Helper lemmas -/

theorem capLe_createUser (c : Capability) : capLe c .createUser = true := by
  cases c <;> rfl

theorem decideCap_createUser (c : Capability) :
    decideCap c .createUser = .allow := by
  cases c <;> rfl

/-- A sample store used by the witnesses: one wiki, a creator, a plain user
with an `editable` grant on the root document. -/
def wStore : Store where
  docs := [⟨1, none, 10, 100, .priv, none⟩,
           ⟨2, some 1, 10, 100, .priv, none⟩]
  grants := [⟨1, 200, .editable⟩, ⟨2, 200, .readable⟩]
  wikis := [⟨10, 100, false⟩]
  members := [⟨10, 200, false⟩]

/-! ## C1: creator is granted the top capability -/

/-- C1: for every store, document and actor, if the actor is the document's
creator then `resolve` allows every requested capability — the creator check
grants `createUser`, the top of the lattice, which implies every lower
capability. -/
theorem creator_resolves_allow (s : Store) (uid documentId : Nat)
    (d : Document) (hfind : findDoc s documentId = some d)
    (hcreator : d.creatorId = uid) :
    (∀ c, capLe c .createUser = true) ∧
    (∀ c, resolve s (some uid) documentId c = .allow) := by
  refine ⟨capLe_createUser, fun c => ?_⟩
  unfold resolve
  rw [hfind]
  simp only [isCreator, hcreator, beq_self_eq_true, if_true]
  exact decideCap_createUser c

/-- Witness for C1 at a concrete store: user 100 created document 1. -/
theorem creator_resolves_allow_witness :
    resolve wStore (some 100) 1 .createUser = .allow :=
  (creator_resolves_allow wStore 100 1 ⟨1, none, 10, 100, .priv, none⟩
    (by decide) rfl).2 .createUser

/-! ## C2: explicit grant gives exactly the granted level -/

/-- C2: for every store, document and actor holding an explicit `editable`
grant on the document and matching no earlier rule (not creator, not wiki
owner), `resolve` allows `readable` but forbids `createUser`: the decision is
exactly the granted capability, with no escalation above it. -/
theorem explicit_grant_no_escalation (s : Store) (uid documentId : Nat)
    (d : Document) (g : Grant) (hfind : findDoc s documentId = some d)
    (hnc : isCreator d uid = false) (hnw : isWikiOwner s d uid = false)
    (hg : findGrant s documentId uid = some g) (hcap : g.cap = .editable) :
    resolve s (some uid) documentId .readable = .allow ∧
    resolve s (some uid) documentId .createUser = .forbidden := by
  constructor <;>
  · unfold resolve
    rw [hfind]
    simp only [hnc, hnw, if_false, Bool.false_eq_true]
    rw [hg]
    show decideCap _ g.cap = _
    rw [hcap]
    rfl

/-- Witness for C2 at a concrete store: user 200 holds an `editable` grant on
document 1 and is neither its creator nor the wiki owner. -/
theorem explicit_grant_no_escalation_witness :
    resolve wStore (some 200) 1 .readable = .allow ∧
    resolve wStore (some 200) 1 .createUser = .forbidden :=
  explicit_grant_no_escalation wStore 200 1 ⟨1, none, 10, 100, .priv, none⟩
    ⟨1, 200, .editable⟩ (by decide) (by decide) (by decide) (by decide) rfl

/-! ## C3: closest ancestor wins -/

/-- C3: a document's own grant, being closest, overrides any ancestor grant —
with `Grant(R,U,editable)` on the parent and `Grant(C,U,readable)` on the
child, `resolve(U, C, editable)` is forbidden; and more generally, when a
document has no direct grant, the first ancestor on the walk toward the root
carrying a grant for the actor determines the capability. -/
theorem closest_ancestor_precedence (s : Store) (uid : Nat) :
    (∀ cid rid c gC gR, findDoc s cid = some c →
      c.parentDocumentId = some rid →
      isCreator c uid = false → isWikiOwner s c uid = false →
      findGrant s rid uid = some gR → gR.cap = .editable →
      findGrant s cid uid = some gC → gC.cap = .readable →
      resolve s (some uid) cid .editable = .forbidden) ∧
    (∀ did d req cap, findDoc s did = some d →
      isCreator d uid = false → isWikiOwner s d uid = false →
      findGrant s did uid = none →
      walkAncestors s uid s.docs.length d.parentDocumentId = .found cap →
      resolve s (some uid) did req = decideCap req cap) := by
  constructor
  · intro cid rid c gC gR hfind _ hnc hnw _ _ hgC hcapC
    unfold resolve
    rw [hfind]
    simp only [hnc, hnw, if_false, Bool.false_eq_true]
    rw [hgC]
    show decideCap _ gC.cap = _
    rw [hcapC]
    rfl
  · intro did d req cap hfind hnc hnw hnog hwalk
    unfold resolve
    rw [hfind]
    simp only [hnc, hnw, if_false, Bool.false_eq_true]
    rw [hnog, hwalk]

/-- Witness for C3 at a concrete store: document 2 is a child of document 1;
user 200 holds `editable` on 1 but only `readable` on 2, so editing 2 is
forbidden. -/
theorem closest_ancestor_precedence_witness :
    resolve wStore (some 200) 2 .editable = .forbidden :=
  (closest_ancestor_precedence wStore 200).1 2 1
    ⟨2, some 1, 10, 100, .priv, none⟩ ⟨2, 200, .readable⟩ ⟨1, 200, .editable⟩
    (by decide) rfl (by decide) (by decide) (by decide) rfl (by decide) rfl

/-! ## C4: the guard's operation-to-capability table -/

/-- C4: the operation-to-capability table maps reading document detail to
`readable`, updating a document to `editable`, and deleting a document or
adding/updating/removing a document member to `createUser`; for every
operation carrying a table entry the guard delegates to `resolve` on that
entry, and a resolved capability below the entry is rejected with
`forbidden`. -/
theorem guard_capability_table :
    requiredCapability .getDocumentDetail = some .readable ∧
    requiredCapability .updateDocument = some .editable ∧
    requiredCapability .deleteDocument = some .createUser ∧
    requiredCapability .addDocUser = some .createUser ∧
    requiredCapability .updateDocUser = some .createUser ∧
    requiredCapability .deleteDocUser = some .createUser ∧
    (∀ s uid documentId op c, requiredCapability op = some c →
      authGuard s (some uid) documentId op = resolve s (some uid) documentId c) ∧
    (∀ req granted, capLe req granted = false →
      decideCap req granted = .forbidden) := by
  refine ⟨rfl, rfl, rfl, rfl, rfl, rfl, ?_, ?_⟩
  · intro s uid documentId op c hc
    unfold authGuard
    simp only [Option.isNone_some, Bool.and_false, Bool.false_eq_true,
      if_false]
    rw [hc]
  · intro req granted h
    unfold decideCap
    rw [h]
    rfl

/-- Witness for C4: the guard decision for reading document 1's detail as
user 200 is exactly the resolver's decision on `readable`. -/
theorem guard_capability_table_witness :
    authGuard wStore (some 200) 1 .getDocumentDetail =
      resolve wStore (some 200) 1 .readable :=
  guard_capability_table.2.2.2.2.2.2.1 wStore 200 1 .getDocumentDetail
    .readable rfl

/-! ## C5: sharing a document requires editable -/

/-- C5: the share route declares `editable` in the capability table, and the
share transition succeeds only when the acting user resolves to `editable` or
above via the same `resolve` logic; an actor below `editable` receives the
resolver's denial and the store — share configuration and status included —
is unchanged. -/
theorem shareDocument_requires_editable :
    requiredCapability .shareDocumentOp = some .editable ∧
    (∀ s uid documentId enable pw exp tok,
      resolve s (some uid) documentId .editable ≠ .allow →
      shareDocument s uid documentId enable pw exp tok =
        (resolve s (some uid) documentId .editable, s)) ∧
    (∀ s uid documentId enable pw exp tok,
      (shareDocument s uid documentId enable pw exp tok).1 = .allow →
      resolve s (some uid) documentId .editable = .allow) := by
  refine ⟨rfl, ?_, ?_⟩
  · intro s uid documentId enable pw exp tok hne
    unfold shareDocument
    cases h : resolve s (some uid) documentId .editable with
    | allow => exact absurd h hne
    | forbidden => rfl
    | unauthenticated => rfl
    | notFound => rfl
    | integrityError => rfl
  · intro s uid documentId enable pw exp tok h
    unfold shareDocument at h
    cases hr : resolve s (some uid) documentId .editable with
    | allow => rfl
    | forbidden => rw [hr] at h; simp at h
    | unauthenticated => rw [hr] at h; simp at h
    | notFound => rw [hr] at h; simp at h
    | integrityError => rw [hr] at h; simp at h

/-- Witness for C5: user 300 holds no capability on document 1, so enabling a
share is denied and the store is unchanged. -/
theorem shareDocument_requires_editable_witness :
    shareDocument wStore 300 1 true none none "t" =
      (resolve wStore (some 300) 1 .editable, wStore) :=
  shareDocument_requires_editable.2.1 wStore 300 1 true none none "t"
    (by decide)

/-! ## C6: public-share routes ignore actor identity -/

/-- C6: the decision of a public-share route is computed by the public-access
check alone: two requests differing only in the actor (anonymous or
authenticated, any identity) receive the same result. -/
theorem public_route_ignores_actor (s : Store) (now : Nat)
    (actor1 actor2 : Option Nat) (documentId : Nat) (token : String)
    (password : Option String) :
    publicRouteDecision s now actor1 documentId token password =
      publicRouteDecision s now actor2 documentId token password := rfl

/-- A sample store with a shared public document, used by the witnesses:
document 3 is public with token "tok", password "p" and expiry 50. -/
def pStore : Store where
  docs := [⟨3, none, 10, 100, .pub, some ⟨"tok", some "p", some 50⟩⟩]
  grants := []
  wikis := [⟨10, 100, false⟩]
  members := []

theorem resolvePublicAccess_found (s : Store) (now documentId : Nat)
    (token : String) (password : Option String) (d : Document)
    (cfg : ShareConfig) (hfind : findDoc s documentId = some d)
    (hcfg : d.shareConfig = some cfg) :
    resolvePublicAccess s now documentId token password =
      checkConfig now token password d cfg := by
  unfold resolvePublicAccess
  rw [hfind]
  show (match d.shareConfig with
        | none => PublicDecision.forbidden
        | some cfg => checkConfig now token password d cfg) = _
  rw [hcfg]

theorem resolvePublicAccess_noConfig (s : Store) (now documentId : Nat)
    (token : String) (password : Option String) (d : Document)
    (hfind : findDoc s documentId = some d)
    (hcfg : d.shareConfig = none) :
    resolvePublicAccess s now documentId token password = .forbidden := by
  unfold resolvePublicAccess
  rw [hfind]
  show (match d.shareConfig with
        | none => PublicDecision.forbidden
        | some cfg => checkConfig now token password d cfg) = _
  rw [hcfg]

/-! ## C7: the public-access check -/

/-- C7: `resolvePublicAccess` returns `allow` iff the document's status is
public, the supplied token equals the stored share token, the supplied
password matches whenever one is set, and, whenever an expiry is set, the
current time is strictly before it; a share whose expiry lies in the past
yields the distinct result `expired` even with correct token and password. -/
theorem resolvePublicAccess_allow_iff (s : Store) (now documentId : Nat)
    (token : String) (password : Option String) (d : Document)
    (cfg : ShareConfig) (hfind : findDoc s documentId = some d)
    (hcfg : d.shareConfig = some cfg) :
    (resolvePublicAccess s now documentId token password = .allow ↔
      (d.status = .pub ∧ cfg.token = token ∧
       (∀ p, cfg.password = some p → password = some p) ∧
       (∀ e, cfg.expiresAt = some e → now < e))) ∧
    (∀ e, d.status = .pub → cfg.token = token →
      (∀ p, cfg.password = some p → password = some p) →
      cfg.expiresAt = some e → e ≤ now →
      resolvePublicAccess s now documentId token password = .expired) := by
  rw [resolvePublicAccess_found s now documentId token password d cfg
    hfind hcfg]
  obtain ⟨ctok, cpw, cexp⟩ := cfg
  constructor
  · unfold checkConfig checkExpiry
    cases cpw <;> cases cexp <;> split_ifs <;>
      (simp_all; try (split_ifs <;> simp_all))
  · intro e hs ht hp he hle
    unfold checkConfig checkExpiry
    simp only at he ht hp ⊢
    subst he ht
    simp only [hs]
    cases cpw with
    | none =>
      simp [Nat.not_lt.mpr hle]
    | some p =>
      have := hp p rfl
      simp [this, Nat.not_lt.mpr hle]

/-- Witness for C7: document 3's share expired at time 50, so at time 60 the
correct token and password yield `expired`. -/
theorem resolvePublicAccess_allow_iff_witness :
    resolvePublicAccess pStore 60 3 "tok" (some "p") = .expired :=
  (resolvePublicAccess_allow_iff pStore 60 3 "tok" (some "p")
      ⟨3, none, 10, 100, .pub, some ⟨"tok", some "p", some 50⟩⟩
      ⟨"tok", some "p", some 50⟩ (by decide) rfl).2 50 rfl rfl
    (fun _ hp => hp) rfl (by decide)

/-! ## C8: share round-trip -/

theorem resolve_of_creator (s : Store) (uid documentId : Nat) (d : Document)
    (hfind : findDoc s documentId = some d) (hcreator : d.creatorId = uid)
    (c : Capability) : resolve s (some uid) documentId c = .allow := by
  unfold resolve
  rw [hfind]
  simp only [isCreator, hcreator, beq_self_eq_true, if_true]
  exact decideCap_createUser c

theorem findDoc_updateDoc_self (s : Store) (documentId : Nat)
    (f : Document → Document) (d : Document)
    (hid : ∀ x, (f x).id = x.id)
    (hfind : findDoc s documentId = some d) :
    findDoc (updateDoc s documentId f) documentId = some (f d) := by
  unfold findDoc at hfind
  have hbeq : (d.id == documentId) = true := by
    simpa using List.find?_some hfind
  unfold findDoc updateDoc
  rw [List.find?_map]
  have hfun : ((fun x : Document => x.id == documentId) ∘
      (fun x => if x.id == documentId then f x else x)) =
      (fun x : Document => x.id == documentId) := by
    funext x
    by_cases h : x.id = documentId
    · simp [h, hid]
    · simp [h]
  rw [hfun, hfind]
  have hd : d.id = documentId := by simpa using hbeq
  simp [hd]

/-- C8: enabling a share as the creator makes the issued token (with the set
password) grant public access while a wrong password is refused; disabling
the share afterwards refuses the old token, reverts the status to private,
and clears the configuration (token unset iff status private). -/
theorem share_round_trip (s : Store) (uid documentId now : Nat)
    (d : Document) (tok tok2 pw wrongPw : String)
    (hfind : findDoc s documentId = some d) (hcreator : d.creatorId = uid)
    (hpw : wrongPw ≠ pw)
    (s1 s2 : Store)
    (hs1 : s1 = (shareDocument s uid documentId true (some pw) none tok).2)
    (hs2 : s2 = (shareDocument s1 uid documentId false none none tok2).2) :
    resolvePublicAccess s1 now documentId tok (some pw) = .allow ∧
    resolvePublicAccess s1 now documentId tok (some wrongPw) = .forbidden ∧
    resolvePublicAccess s2 now documentId tok (some pw) = .forbidden ∧
    (∃ d1, findDoc s1 documentId = some d1 ∧ d1.status = .pub ∧
      d1.shareConfig = some ⟨tok, some pw, none⟩) ∧
    (∃ d2, findDoc s2 documentId = some d2 ∧ d2.status = .priv ∧
      d2.shareConfig = none) := by
  have hres1 : resolve s (some uid) documentId .editable = .allow :=
    resolve_of_creator s uid documentId d hfind hcreator .editable
  have hs1eq : s1 = updateDoc s documentId
      (applyShare true (some pw) none tok) := by
    rw [hs1]
    unfold shareDocument
    rw [hres1]
  have hid1 : ∀ x, (applyShare true (some pw) none tok x).id = x.id :=
    fun x => rfl
  have hd1 : findDoc s1 documentId =
      some (applyShare true (some pw) none tok d) := by
    rw [hs1eq]
    exact findDoc_updateDoc_self s documentId _ d hid1 hfind
  have hd1cfg : (applyShare true (some pw) none tok d).shareConfig =
      some ⟨tok, some pw, none⟩ := rfl
  have hres2 : resolve s1 (some uid) documentId .editable = .allow :=
    resolve_of_creator s1 uid documentId _ hd1 hcreator .editable
  have hs2eq : s2 = updateDoc s1 documentId
      (applyShare false none none tok2) := by
    rw [hs2]
    unfold shareDocument
    rw [hres2]
  have hid2 : ∀ x, (applyShare false none none tok2 x).id = x.id :=
    fun x => rfl
  have hd2 : findDoc s2 documentId =
      some (applyShare false none none tok2
        (applyShare true (some pw) none tok d)) := by
    rw [hs2eq]
    exact findDoc_updateDoc_self s1 documentId _ _ hid2 hd1
  refine ⟨?_, ?_, ?_, ⟨_, hd1, rfl, rfl⟩, ⟨_, hd2, rfl, rfl⟩⟩
  · rw [resolvePublicAccess_found s1 now documentId tok (some pw) _ _
      hd1 hd1cfg]
    simp [checkConfig, checkExpiry, applyShare]
  · rw [resolvePublicAccess_found s1 now documentId tok (some wrongPw) _ _
      hd1 hd1cfg]
    simp [checkConfig, checkExpiry, applyShare, hpw]
  · exact resolvePublicAccess_noConfig s2 now documentId tok (some pw) _
      hd2 rfl

/-- Witness for C8 at a concrete store: creator 100 enables a share on
document 1 with password "p" and token "t1", then disables it. -/
theorem share_round_trip_witness :
    resolvePublicAccess
      (shareDocument wStore 100 1 true (some "p") none "t1").2 7 1 "t1"
      (some "p") = .allow ∧
    resolvePublicAccess
      (shareDocument wStore 100 1 true (some "p") none "t1").2 7 1 "t1"
      (some "wrong") = .forbidden ∧
    resolvePublicAccess
      (shareDocument
        (shareDocument wStore 100 1 true (some "p") none "t1").2
        100 1 false none none "t2").2 7 1 "t1" (some "p") = .forbidden ∧
    (∃ d1, findDoc (shareDocument wStore 100 1 true (some "p") none "t1").2 1 =
        some d1 ∧ d1.status = .pub ∧
        d1.shareConfig = some ⟨"t1", some "p", none⟩) ∧
    (∃ d2, findDoc
        (shareDocument
          (shareDocument wStore 100 1 true (some "p") none "t1").2
          100 1 false none none "t2").2 1 = some d2 ∧ d2.status = .priv ∧
        d2.shareConfig = none) :=
  share_round_trip wStore 100 1 7 ⟨1, none, 10, 100, .priv, none⟩ "t1" "t2"
    "p" "wrong" (by decide) rfl (by decide) _ _ rfl rfl

/-! ## C9: corrupted trees yield integrityError, walk is bounded -/

theorem findDoc_mem_id (s : Store) (documentId : Nat) (d : Document)
    (hfind : findDoc s documentId = some d) :
    d ∈ s.docs ∧ d.id = documentId := by
  unfold findDoc at hfind
  exact ⟨List.mem_of_find?_eq_some hfind, by simpa using List.find?_some hfind⟩

theorem walkAncestors_all_parents_broken (s : Store) (uid : Nat)
    (hng : ∀ x ∈ s.docs, findGrant s x.id uid = none)
    (hp : ∀ x ∈ s.docs, x.parentDocumentId.isSome = true) :
    ∀ fuel pid, walkAncestors s uid fuel (some pid) = .broken := by
  intro fuel
  induction fuel with
  | zero => intro pid; rfl
  | succ n ih =>
    intro pid
    unfold walkAncestors
    cases hfd : findDoc s pid with
    | none => rfl
    | some d =>
      obtain ⟨hmem, hid⟩ := findDoc_mem_id s pid d hfd
      have hg : findGrant s pid uid = none := hid ▸ hng d hmem
      rw [hg]
      show walkAncestors s uid n d.parentDocumentId = WalkResult.broken
      obtain ⟨p, hp2⟩ := Option.isSome_iff_exists.mp (hp d hmem)
      rw [hp2]
      exact ih p

/-- C9: on a store corrupted so that every document claims a parent — which
forces the parent chain from any document to cycle or dangle — the bounded
ancestor walk reports `broken` at every fuel value (so the walk never loops:
it is a structurally terminating bounded recursion), and `resolve` fails
closed with `integrityError`, a deny distinct from `forbidden`, whenever the
document under decision matches no earlier rule. -/
theorem resolve_cycle_integrity_error (s : Store) (uid documentId : Nat)
    (d : Document) (req : Capability)
    (hfind : findDoc s documentId = some d)
    (hnc : isCreator d uid = false) (hnw : isWikiOwner s d uid = false)
    (hng : ∀ x ∈ s.docs, findGrant s x.id uid = none)
    (hp : ∀ x ∈ s.docs, x.parentDocumentId.isSome = true) :
    (∀ fuel pid, walkAncestors s uid fuel (some pid) = .broken) ∧
    resolve s (some uid) documentId req = .integrityError := by
  refine ⟨walkAncestors_all_parents_broken s uid hng hp, ?_⟩
  unfold resolve
  rw [hfind]
  simp only [hnc, hnw, if_false, Bool.false_eq_true]
  obtain ⟨hmem, hid⟩ := findDoc_mem_id s documentId d hfind
  have hg : findGrant s documentId uid = none := hid ▸ hng d hmem
  rw [hg]
  obtain ⟨p, hp2⟩ := Option.isSome_iff_exists.mp (hp d hmem)
  rw [hp2, walkAncestors_all_parents_broken s uid hng hp]

/-- A store whose two documents form a parent cycle. -/
def cycStore : Store where
  docs := [⟨1, some 2, 10, 100, .priv, none⟩, ⟨2, some 1, 10, 100, .priv, none⟩]
  grants := []
  wikis := []
  members := []

/-- Witness for C9: on the two-document parent cycle, resolution for an
unrelated user 200 fails closed with `integrityError`. -/
theorem resolve_cycle_integrity_error_witness :
    resolve cycStore (some 200) 1 .readable = .integrityError :=
  (resolve_cycle_integrity_error cycStore 200 1
    ⟨1, some 2, 10, 100, .priv, none⟩ .readable (by decide) (by decide)
    (by decide) (by decide) (by decide)).2

/-! ## C10: star toggling is an involution on membership -/

theorem starMatches_iff (uid : Nat) (dto : StarDto) (r : StarRecord) :
    starMatches uid dto r = true ↔ r = starData uid dto := by
  obtain ⟨u, w, doc⟩ := r
  simp [starMatches, starData, StarRecord.mk.injEq, and_assoc]

theorem find?_erase_matches_none (uid : Nat) (dto : StarDto) :
    ∀ (l : List StarRecord) (r : StarRecord),
      (l.filter (starMatches uid dto)).length ≤ 1 →
      l.find? (starMatches uid dto) = some r →
      (l.erase r).find? (starMatches uid dto) = none := by
  intro l
  induction l with
  | nil => intro r _ hfind; simp at hfind
  | cons a t ih =>
    intro r hcount hfind
    by_cases ha : starMatches uid dto a = true
    · have hr : a = r := by
        rw [List.find?_cons_of_pos t ha] at hfind
        exact Option.some.inj hfind
      subst hr
      rw [List.erase_cons_head]
      rw [List.filter_cons_of_pos ha] at hcount
      simp only [List.length_cons] at hcount
      have hnil : t.filter (starMatches uid dto) = [] :=
        List.length_eq_zero.mp (by omega)
      rw [List.find?_eq_none]
      intro x hx hpx
      have hxf : x ∈ t.filter (starMatches uid dto) :=
        List.mem_filter.mpr ⟨hx, hpx⟩
      rw [hnil] at hxf
      simp at hxf
    · have hfind2 : t.find? (starMatches uid dto) = some r := by
        rwa [List.find?_cons_of_neg t ha] at hfind
      have hcount2 : (t.filter (starMatches uid dto)).length ≤ 1 := by
        rwa [List.filter_cons_of_neg ha] at hcount
      have hner : a ≠ r := by
        intro h
        exact ha (h ▸ List.find?_some hfind2)
      rw [List.erase_cons_tail (by simpa using hner)]
      rw [List.find?_cons_of_neg _ ha]
      exact ih r hcount2 hfind2

/-- C10: `toggleStar` is an involution on the store's membership for a given
user and target: on a store holding at most one matching record, toggling
with no record present appends exactly the new record (count goes to one)
and returns it; toggling with the record present removes it (count goes to
zero) and returns nothing; a single call flips `isStared` and two
consecutive calls restore it. -/
theorem toggleStar_involution (store : List StarRecord) (uid : Nat)
    (dto : StarDto)
    (hcount : (store.filter (starMatches uid dto)).length ≤ 1) :
    isStared (toggleStar store uid dto).1 uid dto =
      !isStared store uid dto ∧
    isStared (toggleStar (toggleStar store uid dto).1 uid dto).1 uid dto =
      isStared store uid dto ∧
    (store.find? (starMatches uid dto) = none →
      toggleStar store uid dto =
        (store ++ [starData uid dto], some (starData uid dto)) ∧
      ((store ++ [starData uid dto]).filter (starMatches uid dto)).length
        = 1) ∧
    (∀ r, store.find? (starMatches uid dto) = some r →
      toggleStar store uid dto = (store.erase r, none) ∧
      ((store.erase r).filter (starMatches uid dto)).length = 0) := by
  have hpstar : starMatches uid dto (starData uid dto) = true :=
    (starMatches_iff uid dto _).mpr rfl
  cases hf : store.find? (starMatches uid dto) with
  | none =>
    have htog : toggleStar store uid dto =
        (store ++ [starData uid dto], some (starData uid dto)) := by
      unfold toggleStar
      rw [hf]
    have hstared0 : isStared store uid dto = false := by
      unfold isStared
      rw [hf]
      rfl
    have hfilnil : store.filter (starMatches uid dto) = [] :=
      List.filter_eq_nil_iff.mpr (List.find?_eq_none.mp hf)
    have hfind1 : (store ++ [starData uid dto]).find? (starMatches uid dto)
        = some (starData uid dto) := by
      rw [List.find?_append, hf, Option.none_or]
      exact List.find?_cons_of_pos [] hpstar
    have hstared1 : isStared (store ++ [starData uid dto]) uid dto = true := by
      unfold isStared
      rw [hfind1]
      rfl
    have hnotmem : starData uid dto ∉ store := fun hmem =>
      List.find?_eq_none.mp hf _ hmem hpstar
    have herase : (store ++ [starData uid dto]).erase (starData uid dto)
        = store := by
      rw [List.erase_append_right _ hnotmem, List.erase_cons_head,
        List.append_nil]
    have htog2 : toggleStar (store ++ [starData uid dto]) uid dto =
        (store, none) := by
      unfold toggleStar
      rw [hfind1]
      show ((store ++ [starData uid dto]).erase (starData uid dto), none) = _
      rw [herase]
    refine ⟨?_, ?_, ?_, ?_⟩
    · rw [htog, hstared0]
      exact hstared1
    · rw [htog]
      show isStared (toggleStar (store ++ [starData uid dto]) uid dto).1
        uid dto = _
      rw [htog2, hstared0]
    · intro _
      refine ⟨htog, ?_⟩
      rw [List.filter_append, hfilnil, List.nil_append,
        List.filter_cons_of_pos hpstar]
      rfl
    · intro r hr
      exact absurd hr (by simp)
  | some r =>
    have htog : toggleStar store uid dto = (store.erase r, none) := by
      unfold toggleStar
      rw [hf]
    have hstared0 : isStared store uid dto = true := by
      unfold isStared
      rw [hf]
      rfl
    have hnone : (store.erase r).find? (starMatches uid dto) = none :=
      find?_erase_matches_none uid dto store r hcount hf
    have hstared1 : isStared (store.erase r) uid dto = false := by
      unfold isStared
      rw [hnone]
      rfl
    have htog2 : toggleStar (store.erase r) uid dto =
        (store.erase r ++ [starData uid dto], some (starData uid dto)) := by
      unfold toggleStar
      rw [hnone]
    have hfind2 : (store.erase r ++ [starData uid dto]).find?
        (starMatches uid dto) = some (starData uid dto) := by
      rw [List.find?_append, hnone, Option.none_or]
      exact List.find?_cons_of_pos [] hpstar
    have hstared2 : isStared (store.erase r ++ [starData uid dto]) uid dto
        = true := by
      unfold isStared
      rw [hfind2]
      rfl
    refine ⟨?_, ?_, ?_, ?_⟩
    · rw [htog, hstared0]
      exact hstared1
    · rw [htog]
      show isStared (toggleStar (store.erase r) uid dto).1 uid dto = _
      rw [htog2]
      rw [hstared0]
      exact hstared2
    · intro h
      exact absurd h (by simp)
    · intro r2 hr2
      have hrr : r = r2 := Option.some.inj hr2
      subst hrr
      refine ⟨htog, ?_⟩
      rw [List.filter_eq_nil_iff.mpr (List.find?_eq_none.mp hnone)]
      rfl

/-- Witness for C10 at the empty store: toggling user 1's star on
(wiki 5, document 6) flips and double-toggling restores. -/
theorem toggleStar_involution_witness :
    isStared (toggleStar [] 1 ⟨some 5, some 6⟩).1 1 ⟨some 5, some 6⟩ =
      !isStared [] 1 ⟨some 5, some 6⟩ ∧
    isStared (toggleStar (toggleStar [] 1 ⟨some 5, some 6⟩).1 1
        ⟨some 5, some 6⟩).1 1 ⟨some 5, some 6⟩ =
      isStared [] 1 ⟨some 5, some 6⟩ ∧
    (List.find? (starMatches 1 ⟨some 5, some 6⟩) [] = none →
      toggleStar [] 1 ⟨some 5, some 6⟩ =
        ([] ++ [starData 1 ⟨some 5, some 6⟩],
          some (starData 1 ⟨some 5, some 6⟩)) ∧
      (([] ++ [starData 1 ⟨some 5, some 6⟩]).filter
        (starMatches 1 ⟨some 5, some 6⟩)).length = 1) ∧
    (∀ r, List.find? (starMatches 1 ⟨some 5, some 6⟩) [] = some r →
      toggleStar [] 1 ⟨some 5, some 6⟩ = (List.erase [] r, none) ∧
      ((List.erase [] r).filter (starMatches 1 ⟨some 5, some 6⟩)).length
        = 0) :=
  toggleStar_involution [] 1 ⟨some 5, some 6⟩ (by decide)
